import Mathlib

/-!
Verification of the structural-biology helper scripts of the repository
(interface-residue detection, chain center of mass, atomic distance and the
rule-based mutation heuristic).

Shallow embedding conventions:
* 3-D coordinates are rationals (exact reals of the source file format).
* The Euclidean distance of src/atomic_distance.py is a real number
  (a square root); the comparison `distance <= cutoff` performed by the
  contact detector is embedded as the equivalent computable rational test
  `0 ≤ cutoff ∧ squared-distance ≤ cutoff ^ 2` (lemma dist_le_cutoff_iff
  proves the equivalence).
* Python sets become Finset, Python exceptions become an Except error type.
-/

/-- Radicand of `calculate_atomic_distance` (src/atomic_distance.py lines
19-24): sum of the squared coordinate-wise differences dx, dy, dz. -/
def sq_diff_sum (position1 position2 : ℚ × ℚ × ℚ) : ℚ :=
  (position2.1 - position1.1) ^ 2 + (position2.2.1 - position1.2.1) ^ 2 +
    (position2.2.2 - position1.2.2) ^ 2

/-- Embedding of `calculate_atomic_distance` (src/atomic_distance.py):
Euclidean distance between two 3-D atomic positions, the square root of the
sum of squared coordinate differences. -/
noncomputable def calculate_atomic_distance (position1 position2 : ℚ × ℚ × ℚ) : ℝ :=
  Real.sqrt ((sq_diff_sum position1 position2 : ℚ) : ℝ)

/-- Computable form of the comparison `distance <= cutoff` used by the
contact detector: for nonnegative radicands, sqrt s ≤ c holds exactly when
0 ≤ c and s ≤ c ^ 2. -/
def dist_le_cutoff (p q : ℚ × ℚ × ℚ) (cutoff : ℚ) : Bool :=
  decide (0 ≤ cutoff) && decide (sq_diff_sum p q ≤ cutoff ^ 2)

lemma sq_diff_sum_nonneg (p q : ℚ × ℚ × ℚ) : 0 ≤ sq_diff_sum p q := by
  unfold sq_diff_sum
  positivity

lemma sq_diff_sum_comm (p q : ℚ × ℚ × ℚ) : sq_diff_sum p q = sq_diff_sum q p := by
  unfold sq_diff_sum
  ring

/-- The Boolean cutoff test agrees with the real comparison
`calculate_atomic_distance p q ≤ cutoff` performed by the source. -/
lemma dist_le_cutoff_iff (p q : ℚ × ℚ × ℚ) (cutoff : ℚ) :
    dist_le_cutoff p q cutoff = true ↔ calculate_atomic_distance p q ≤ (cutoff : ℝ) := by
  unfold dist_le_cutoff calculate_atomic_distance
  rw [Bool.and_eq_true, decide_eq_true_eq, decide_eq_true_eq, Real.sqrt_le_iff]
  constructor
  · rintro ⟨h0, hle⟩
    refine ⟨by exact_mod_cast h0, ?_⟩
    exact_mod_cast hle
  · rintro ⟨h0, hle⟩
    refine ⟨by exact_mod_cast h0, ?_⟩
    exact_mod_cast hle

lemma dist_le_cutoff_comm (p q : ℚ × ℚ × ℚ) (cutoff : ℚ) :
    dist_le_cutoff p q cutoff = dist_le_cutoff q p cutoff := by
  unfold dist_le_cutoff
  rw [sq_diff_sum_comm]

lemma dist_le_cutoff_mono (p q : ℚ × ℚ × ℚ) (c1 c2 : ℚ) (h : c1 ≤ c2)
    (hd : dist_le_cutoff p q c1 = true) : dist_le_cutoff p q c2 = true := by
  unfold dist_le_cutoff at hd ⊢
  rw [Bool.and_eq_true, decide_eq_true_eq, decide_eq_true_eq] at hd ⊢
  obtain ⟨h0, hle⟩ := hd
  exact ⟨le_trans h0 h, le_trans hle (pow_le_pow_left₀ h0 h 2)⟩

/-- C8: `calculate_atomic_distance` of a point with itself is exactly 0 (no
special-casing of identical points is present or needed), and the distance is
symmetric in its two arguments. -/
theorem calculate_atomic_distance_self_zero_and_symm :
    ∀ p a b : ℚ × ℚ × ℚ,
      calculate_atomic_distance p p = 0 ∧
        calculate_atomic_distance a b = calculate_atomic_distance b a := by
  intro p a b
  constructor
  · have h : sq_diff_sum p p = 0 := by unfold sq_diff_sum; ring
    unfold calculate_atomic_distance
    rw [h]
    push_cast
    exact Real.sqrt_zero
  · unfold calculate_atomic_distance
    rw [sq_diff_sum_comm]

/-- An atom of the Biopython structure model: only its 3-D coordinate is
consulted by the contact detector. -/
structure Atom where
  coord : ℚ × ℚ × ℚ
deriving DecidableEq

/-- A residue: `resseq` embeds `residue.id[1]` (the author sequence number)
and `resname` embeds `residue.resname`. -/
structure Residue where
  resseq : ℤ
  resname : String
  atoms : List Atom
deriving DecidableEq

/-- A chain: identifier plus its ordered residues. -/
structure Chain where
  id : String
  residues : List Residue
deriving DecidableEq

/-- A loaded structure (single model): its ordered chains. -/
structure PDBStructure where
  chains : List Chain
deriving DecidableEq

/-- Embedding of `structure.get_atoms()`: all atoms of the structure, each
paired with the id of its grandparent chain and the sequence number of its
parent residue (the data the detector extracts through get_parent). -/
def PDBStructure.get_atoms (s : PDBStructure) : List (String × ℤ × Atom) :=
  s.chains.flatMap fun ch => ch.residues.flatMap fun r => r.atoms.map fun a => (ch.id, r.resseq, a)

/-- Embedding of the list comprehension
`[atom for atom in structure.get_atoms() if atom.get_parent().get_parent().id == c]`
(src/protein_improvement_agent.py lines 21-22). -/
def PDBStructure.atomsOfChain (s : PDBStructure) (cid : String) : List (String × ℤ × Atom) :=
  s.get_atoms.filter fun t => decide (t.1 = cid)

/-- Chain identifiers present in the structure (the key set of the chain map). -/
def PDBStructure.chainIds (s : PDBStructure) : List String :=
  s.chains.map Chain.id

/-- State of a `ContactSelect` object (src/protein_improvement_agent.py
lines 10-16). -/
structure ContactSelect where
  chain_a : String
  chain_b : String
  cutoff : ℚ
  contact_residues : Finset (String × ℤ)
deriving DecidableEq

/-- Embedding of `ContactSelect.__init__`: records the two chain ids and the
cutoff and starts with an empty `contact_residues` set (the source default
cutoff is 5.0; here the cutoff is always passed explicitly). -/
def ContactSelect.init (chain_a chain_b : String) (cutoff : ℚ) : ContactSelect :=
  { chain_a := chain_a, chain_b := chain_b, cutoff := cutoff, contact_residues := ∅ }

/-- Inner loop of `find_contacts` (lines 27-33): for one atom `ta` of chain A,
walk the atoms of chain B and, whenever the distance is within the cutoff,
add both residue keys to the accumulated set. -/
def addContactsB (chain_a chain_b : String) (cutoff : ℚ) (ta : String × ℤ × Atom) :
    List (String × ℤ × Atom) → Finset (String × ℤ) → Finset (String × ℤ)
  | [], acc => acc
  | tb :: rest, acc =>
      addContactsB chain_a chain_b cutoff ta rest
        (if dist_le_cutoff ta.2.2.coord tb.2.2.coord cutoff then
          insert (chain_a, ta.2.1) (insert (chain_b, tb.2.1) acc)
        else acc)

/-- Outer loop of `find_contacts` (lines 25-33): walk the atoms of chain A,
running the inner loop for each. -/
def addContactsA (chain_a chain_b : String) (cutoff : ℚ)
    (atoms_b : List (String × ℤ × Atom)) :
    List (String × ℤ × Atom) → Finset (String × ℤ) → Finset (String × ℤ)
  | [], acc => acc
  | ta :: rest, acc =>
      addContactsA chain_a chain_b cutoff atoms_b rest
        (addContactsB chain_a chain_b cutoff ta atoms_b acc)

/-- Embedding of `ContactSelect.find_contacts` (src/protein_improvement_agent.py
lines 18-35): filters the atoms of the two requested chains, scans all pairs,
mutates `self.contact_residues` and returns it.  The returned pair is the
updated object state together with the returned set. -/
def ContactSelect.find_contacts (cs : ContactSelect) (s : PDBStructure) :
    ContactSelect × Finset (String × ℤ) :=
  let atoms_a := s.atomsOfChain cs.chain_a
  let atoms_b := s.atomsOfChain cs.chain_b
  let result := addContactsA cs.chain_a cs.chain_b cs.cutoff atoms_b atoms_a cs.contact_residues
  ({ cs with contact_residues := result }, result)

lemma mem_addContactsB (A B : String) (c : ℚ) (ta : String × ℤ × Atom) :
    ∀ (bs : List (String × ℤ × Atom)) (acc : Finset (String × ℤ)) (k : String × ℤ),
      k ∈ addContactsB A B c ta bs acc ↔
        k ∈ acc ∨ ∃ tb ∈ bs, dist_le_cutoff ta.2.2.coord tb.2.2.coord c = true ∧
          (k = (A, ta.2.1) ∨ k = (B, tb.2.1))
  | [], acc, k => by simp [addContactsB]
  | tb :: rest, acc, k => by
      rw [addContactsB, mem_addContactsB A B c ta rest]
      by_cases h : dist_le_cutoff ta.2.2.coord tb.2.2.coord c = true
      · simp only [h, if_true, Finset.mem_insert, List.mem_cons]
        constructor
        · rintro ((hk | hk | hk) | ⟨tb2, htb2, hd, hk⟩)
          · exact Or.inr ⟨tb, Or.inl rfl, h, Or.inl hk⟩
          · exact Or.inr ⟨tb, Or.inl rfl, h, Or.inr hk⟩
          · exact Or.inl hk
          · exact Or.inr ⟨tb2, Or.inr htb2, hd, hk⟩
        · rintro (hk | ⟨tb2, (rfl | htb2), hd, hk⟩)
          · exact Or.inl (Or.inr (Or.inr hk))
          · rcases hk with hk | hk
            · exact Or.inl (Or.inl hk)
            · exact Or.inl (Or.inr (Or.inl hk))
          · exact Or.inr ⟨tb2, htb2, hd, hk⟩
      · simp only [h, if_false, List.mem_cons]
        constructor
        · rintro (hk | ⟨tb2, htb2, hd, hk⟩)
          · exact Or.inl hk
          · exact Or.inr ⟨tb2, Or.inr htb2, hd, hk⟩
        · rintro (hk | ⟨tb2, (rfl | htb2), hd, hk⟩)
          · exact Or.inl hk
          · exact absurd hd h
          · exact Or.inr ⟨tb2, htb2, hd, hk⟩

lemma mem_addContactsA (A B : String) (c : ℚ) (bs : List (String × ℤ × Atom)) :
    ∀ (atomsA : List (String × ℤ × Atom)) (acc : Finset (String × ℤ)) (k : String × ℤ),
      k ∈ addContactsA A B c bs atomsA acc ↔
        k ∈ acc ∨ ∃ ta ∈ atomsA, ∃ tb ∈ bs,
          dist_le_cutoff ta.2.2.coord tb.2.2.coord c = true ∧
          (k = (A, ta.2.1) ∨ k = (B, tb.2.1))
  | [], acc, k => by simp [addContactsA]
  | ta :: rest, acc, k => by
      rw [addContactsA, mem_addContactsA A B c bs rest, mem_addContactsB]
      simp only [List.mem_cons]
      constructor
      · rintro ((hk | ⟨tb, htb, hd, hk⟩) | ⟨ta2, hta2, tb, htb, hd, hk⟩)
        · exact Or.inl hk
        · exact Or.inr ⟨ta, Or.inl rfl, tb, htb, hd, hk⟩
        · exact Or.inr ⟨ta2, Or.inr hta2, tb, htb, hd, hk⟩
      · rintro (hk | ⟨ta2, (rfl | hta2), tb, htb, hd, hk⟩)
        · exact Or.inl (Or.inl hk)
        · exact Or.inl (Or.inr ⟨tb, htb, hd, hk⟩)
        · exact Or.inr ⟨ta2, hta2, tb, htb, hd, hk⟩

/-- Membership in the set returned by `find_contacts`: either the key was
already accumulated, or some within-cutoff atom pair of the two requested
chains contributes it (from either side). -/
lemma mem_find_contacts (cs : ContactSelect) (s : PDBStructure) (k : String × ℤ) :
    k ∈ (cs.find_contacts s).2 ↔
      k ∈ cs.contact_residues ∨
        ∃ ta ∈ s.atomsOfChain cs.chain_a, ∃ tb ∈ s.atomsOfChain cs.chain_b,
          dist_le_cutoff ta.2.2.coord tb.2.2.coord cs.cutoff = true ∧
          (k = (cs.chain_a, ta.2.1) ∨ k = (cs.chain_b, tb.2.1)) := by
  unfold ContactSelect.find_contacts
  exact mem_addContactsA cs.chain_a cs.chain_b cs.cutoff (s.atomsOfChain cs.chain_b)
    (s.atomsOfChain cs.chain_a) cs.contact_residues k

lemma mem_get_atoms (s : PDBStructure) (t : String × ℤ × Atom) :
    t ∈ s.get_atoms ↔
      ∃ ch ∈ s.chains, ∃ r ∈ ch.residues, ∃ a ∈ r.atoms, t = (ch.id, r.resseq, a) := by
  unfold PDBStructure.get_atoms
  simp only [List.mem_flatMap, List.mem_map]
  constructor
  · rintro ⟨ch, hch, r, hr, a, ha, rfl⟩
    exact ⟨ch, hch, r, hr, a, ha, rfl⟩
  · rintro ⟨ch, hch, r, hr, a, ha, rfl⟩
    exact ⟨ch, hch, r, hr, a, ha, rfl⟩

lemma mem_atomsOfChain (s : PDBStructure) (cid : String) (t : String × ℤ × Atom) :
    t ∈ s.atomsOfChain cid ↔ t ∈ s.get_atoms ∧ t.1 = cid := by
  unfold PDBStructure.atomsOfChain
  rw [List.mem_filter, decide_eq_true_eq]

lemma get_atoms_chain_mem (s : PDBStructure) (t : String × ℤ × Atom)
    (h : t ∈ s.get_atoms) : t.1 ∈ s.chainIds := by
  rw [mem_get_atoms] at h
  obtain ⟨ch, hch, r, hr, a, ha, rfl⟩ := h
  exact List.mem_map.mpr ⟨ch, hch, rfl⟩

lemma init_chain_a (a b : String) (c : ℚ) : (ContactSelect.init a b c).chain_a = a := rfl

lemma init_chain_b (a b : String) (c : ℚ) : (ContactSelect.init a b c).chain_b = b := rfl

lemma init_cutoff (a b : String) (c : ℚ) : (ContactSelect.init a b c).cutoff = c := rfl

lemma init_contact_residues (a b : String) (c : ℚ) :
    (ContactSelect.init a b c).contact_residues = ∅ := rfl

lemma find_contacts_state_chain_a (cs : ContactSelect) (s : PDBStructure) :
    (cs.find_contacts s).1.chain_a = cs.chain_a := rfl

lemma find_contacts_state_chain_b (cs : ContactSelect) (s : PDBStructure) :
    (cs.find_contacts s).1.chain_b = cs.chain_b := rfl

lemma find_contacts_state_cutoff (cs : ContactSelect) (s : PDBStructure) :
    (cs.find_contacts s).1.cutoff = cs.cutoff := rfl

lemma find_contacts_state_contact_residues (cs : ContactSelect) (s : PDBStructure) :
    (cs.find_contacts s).1.contact_residues = (cs.find_contacts s).2 := rfl

/-- Formalisation of the specification predicate for C2: the key identifies a
residue of chain A (respectively chain B) that has some atom at distance at
most c, in the sense of `calculate_atomic_distance`, from some atom of the
other chain. -/
def keyHasContact (s : PDBStructure) (A B : String) (c : ℚ) (k : String × ℤ) : Prop :=
  (∃ ch ∈ s.chains, ch.id = A ∧ ∃ r ∈ ch.residues, k = (A, r.resseq) ∧
    ∃ a ∈ r.atoms, ∃ tb ∈ s.atomsOfChain B,
      calculate_atomic_distance a.coord tb.2.2.coord ≤ (c : ℝ)) ∨
  (∃ ch ∈ s.chains, ch.id = B ∧ ∃ r ∈ ch.residues, k = (B, r.resseq) ∧
    ∃ b ∈ r.atoms, ∃ ta ∈ s.atomsOfChain A,
      calculate_atomic_distance b.coord ta.2.2.coord ≤ (c : ℝ))

/-- C2: on a freshly constructed detector, a ResidueKey is in the set returned
by `find_contacts` exactly when it names a residue of chain A or of chain B
having some atom within the cutoff distance of some atom of the other chain;
both residues of a contacting atom pair are reported, one from each side. -/
theorem find_contacts_key_iff_contact (s : PDBStructure) (A B : String) (c : ℚ)
    (_hA : A ∈ s.chainIds) (_hB : B ∈ s.chainIds) (k : String × ℤ) :
    k ∈ ((ContactSelect.init A B c).find_contacts s).2 ↔ keyHasContact s A B c k := by
  rw [mem_find_contacts]
  simp only [init_chain_a, init_chain_b, init_cutoff, init_contact_residues,
    Finset.not_mem_empty, false_or]
  unfold keyHasContact
  constructor
  · rintro ⟨ta, hta, tb, htb, hd, (rfl | rfl)⟩
    · rw [mem_atomsOfChain] at hta
      obtain ⟨hmem, hid⟩ := hta
      rw [mem_get_atoms] at hmem
      obtain ⟨ch, hch, r, hr, a, ha, rfl⟩ := hmem
      refine Or.inl ⟨ch, hch, hid, r, hr, rfl, a, ha, tb, htb, ?_⟩
      exact (dist_le_cutoff_iff _ _ _).mp hd
    · rw [mem_atomsOfChain] at htb
      obtain ⟨hmem, hid⟩ := htb
      rw [mem_get_atoms] at hmem
      obtain ⟨ch, hch, r, hr, b, hb, rfl⟩ := hmem
      refine Or.inr ⟨ch, hch, hid, r, hr, rfl, b, hb, ta, hta, ?_⟩
      rw [dist_le_cutoff_comm] at hd
      exact (dist_le_cutoff_iff _ _ _).mp hd
  · rintro (⟨ch, hch, hid, r, hr, rfl, a, ha, tb, htb, hdist⟩ |
            ⟨ch, hch, hid, r, hr, rfl, b, hb, ta, hta, hdist⟩)
    · refine ⟨(ch.id, r.resseq, a), ?_, tb, htb, ?_, Or.inl (by rw [hid])⟩
      · rw [mem_atomsOfChain]
        exact ⟨(mem_get_atoms s _).mpr ⟨ch, hch, r, hr, a, ha, rfl⟩, hid⟩
      · exact (dist_le_cutoff_iff _ _ _).mpr hdist
    · refine ⟨ta, hta, (ch.id, r.resseq, b), ?_, ?_, Or.inr (by rw [hid])⟩
      · rw [mem_atomsOfChain]
        exact ⟨(mem_get_atoms s _).mpr ⟨ch, hch, r, hr, b, hb, rfl⟩, hid⟩
      · rw [dist_le_cutoff_comm]
        exact (dist_le_cutoff_iff _ _ _).mpr hdist

/-- One-chain sample structure: chain A with a single alanine residue whose
only atom sits at the origin. -/
def structOnlyA : PDBStructure :=
  ⟨[⟨"A", [⟨1, "ALA", [⟨(0, 0, 0)⟩]⟩]⟩]⟩

/-- Two-chain sample structure from the specification scenario: chain A has
residue 1 (ALA) with an atom at (0,0,0); chain B has residue 1 (GLY) with an
atom at (3,0,0). -/
def structAB : PDBStructure :=
  ⟨[⟨"A", [⟨1, "ALA", [⟨(0, 0, 0)⟩]⟩]⟩, ⟨"B", [⟨1, "GLY", [⟨(3, 0, 0)⟩]⟩]⟩]⟩

/-- Witness for C2 at the specification scenario structure and key (A,1). -/
theorem find_contacts_key_iff_contact_witness :
    ("A" ∈ structAB.chainIds ∧ "B" ∈ structAB.chainIds) ∧
      (("A", (1 : ℤ)) ∈ ((ContactSelect.init "A" "B" 5).find_contacts structAB).2 ↔
        keyHasContact structAB "A" "B" 5 ("A", 1)) :=
  ⟨⟨by decide, by decide⟩,
    find_contacts_key_iff_contact structAB "A" "B" 5 (by decide) (by decide) ("A", 1)⟩

/-- C5: swapping the two chain arguments of a fresh contact query never
changes the returned set of ResidueKeys. -/
theorem find_contacts_swap_comm (s : PDBStructure) (A B : String) (c : ℚ) :
    ((ContactSelect.init A B c).find_contacts s).2 =
      ((ContactSelect.init B A c).find_contacts s).2 := by
  ext k
  rw [mem_find_contacts, mem_find_contacts]
  simp only [init_chain_a, init_chain_b, init_cutoff, init_contact_residues,
    Finset.not_mem_empty, false_or]
  constructor
  · rintro ⟨ta, hta, tb, htb, hd, hk⟩
    refine ⟨tb, htb, ta, hta, ?_, hk.symm⟩
    rw [dist_le_cutoff_comm]
    exact hd
  · rintro ⟨tb, htb, ta, hta, hd, hk⟩
    refine ⟨ta, hta, tb, htb, ?_, hk.symm⟩
    rw [dist_le_cutoff_comm]
    exact hd

/-- C6: the contact query is monotone in the cutoff; a strictly larger cutoff
can only enlarge the returned set. -/
theorem find_contacts_cutoff_mono (s : PDBStructure) (A B : String) (c1 c2 : ℚ)
    (h : c1 < c2) :
    ((ContactSelect.init A B c1).find_contacts s).2 ⊆
      ((ContactSelect.init A B c2).find_contacts s).2 := by
  intro k hk
  rw [mem_find_contacts] at hk ⊢
  simp only [init_chain_a, init_chain_b, init_cutoff, init_contact_residues,
    Finset.not_mem_empty, false_or] at hk ⊢
  obtain ⟨ta, hta, tb, htb, hd, hkk⟩ := hk
  exact ⟨ta, hta, tb, htb, dist_le_cutoff_mono _ _ _ _ h.le hd, hkk⟩

/-- Witness for C6 on the scenario structure with cutoffs 1 and 5. -/
theorem find_contacts_cutoff_mono_witness :
    (1 : ℚ) < 5 ∧
      ((ContactSelect.init "A" "B" 1).find_contacts structAB).2 ⊆
        ((ContactSelect.init "A" "B" 5).find_contacts structAB).2 :=
  ⟨by norm_num, find_contacts_cutoff_mono structAB "A" "B" 1 5 (by norm_num)⟩

/-- C1 counterexample: on a structure whose chain map lacks chain B, a fresh
`find_contacts` call does not fail at all; it silently returns a result (the
empty set).  The source has no ChainNotFoundError code path. -/
theorem find_contacts_missing_chain_counterexample :
    "B" ∉ structOnlyA.chainIds ∧
      ((ContactSelect.init "A" "B" 5).find_contacts structOnlyA).2 = ∅ := by
  constructor
  · decide
  · rfl

/-- C1 amended: if either requested chain identifier is absent from the chain
map, a fresh `find_contacts` call returns normally with the empty set (the
absent chain simply contributes no atoms). -/
theorem find_contacts_missing_chain_returns_empty (s : PDBStructure) (A B : String)
    (c : ℚ) (h : A ∉ s.chainIds ∨ B ∉ s.chainIds) :
    ((ContactSelect.init A B c).find_contacts s).2 = ∅ := by
  ext k
  simp only [Finset.not_mem_empty, iff_false]
  rw [mem_find_contacts]
  simp only [init_chain_a, init_chain_b, init_cutoff, init_contact_residues,
    Finset.not_mem_empty, false_or]
  rintro ⟨ta, hta, tb, htb, _, _⟩
  rw [mem_atomsOfChain] at hta htb
  rcases h with h | h
  · exact h (hta.2 ▸ get_atoms_chain_mem s ta hta.1)
  · exact h (htb.2 ▸ get_atoms_chain_mem s tb htb.1)

/-- Witness for the amended C1 on the one-chain sample structure. -/
theorem find_contacts_missing_chain_witness :
    ("A" ∉ structOnlyA.chainIds ∨ "B" ∉ structOnlyA.chainIds) ∧
      ((ContactSelect.init "A" "B" 5).find_contacts structOnlyA).2 = ∅ :=
  ⟨Or.inr (by decide),
    find_contacts_missing_chain_returns_empty structOnlyA "A" "B" 5 (Or.inr (by decide))⟩

/-- C10: the detector accumulates state across calls.  The set starts empty at
construction, a call never removes previously accumulated keys, and a second
call on the object state left by a first call returns the union of the fresh
contacts of the second structure with everything found by the first call. -/
theorem contact_residues_accumulate_across_calls :
    (∀ (a b : String) (c : ℚ), (ContactSelect.init a b c).contact_residues = ∅) ∧
    (∀ (cs : ContactSelect) (s : PDBStructure),
      cs.contact_residues ⊆ (cs.find_contacts s).1.contact_residues) ∧
    (∀ (a b : String) (c : ℚ) (s1 s2 : PDBStructure),
      ((((ContactSelect.init a b c).find_contacts s1).1).find_contacts s2).2 =
        ((ContactSelect.init a b c).find_contacts s2).2 ∪
          ((ContactSelect.init a b c).find_contacts s1).2) := by
  refine ⟨fun a b c => rfl, ?_, ?_⟩
  · intro cs s k hk
    rw [find_contacts_state_contact_residues, mem_find_contacts]
    exact Or.inl hk
  · intro a b c s1 s2
    ext k
    rw [Finset.mem_union, mem_find_contacts, mem_find_contacts, mem_find_contacts]
    simp only [find_contacts_state_chain_a, find_contacts_state_chain_b,
      find_contacts_state_cutoff, find_contacts_state_contact_residues,
      init_chain_a, init_chain_b, init_cutoff, init_contact_residues,
      Finset.not_mem_empty, false_or, mem_find_contacts]
    exact or_comm

/-- Characters stripped by the Python str.strip method (ASCII whitespace). -/
def pyIsSpace (c : Char) : Bool :=
  c = ' ' || c = '\t' || c = '\n' || c = '\r' || c = '\x0b' || c = '\x0c'

/-- Embedding of Python str.strip(): drop whitespace from both ends. -/
def pyStrip (s : String) : String :=
  String.mk (((s.toList.dropWhile pyIsSpace).reverse.dropWhile pyIsSpace).reverse)

/-- Embedding of the Python slice `s[a:b]` on strings (out-of-range indices
truncate silently, exactly as in Python). -/
def pySlice (s : String) (a b : Nat) : String :=
  String.mk ((s.toList.drop a).take (b - a))

/-- Embedding of Python single-character indexing `s[i]`: none models the
IndexError raised when the index is out of range. -/
def pyCharAt (s : String) (i : Nat) : Option Char :=
  (s.toList)[i]?

/-- Embedding of Python str.upper() on the ASCII element symbols that occur
in structure files. -/
def pyUpper (s : String) : String :=
  String.mk (s.toList.map Char.toUpper)

/-- Embedding of `line.startswith(txt)`. -/
def pyStartsWith (s head : String) : Bool :=
  List.isPrefixOf head.toList s.toList

/-- Numeric value of a digit run, most significant first. -/
def natOfDigits (cs : List Char) : ℚ :=
  cs.foldl (fun acc c => acc * 10 + ((c.toNat - 48 : ℕ) : ℚ)) 0

/-- Value of a fractional digit run (the digits after the decimal point). -/
def fracOfDigits (cs : List Char) : ℚ :=
  natOfDigits cs / (10 : ℚ) ^ cs.length

/-- Embedding of the Python float(...) conversion on the fixed-format decimal
coordinate fields of structure files: optional sign, an integer digit run, an
optional decimal point with a fractional digit run; surrounding whitespace is
ignored; none models the ValueError raised on malformed input. -/
def parsePyFloat (s : String) : Option ℚ :=
  let t := (pyStrip s).toList
  let signedRest : ℚ × List Char :=
    match t with
    | '-' :: r => (-1, r)
    | '+' :: r => (1, r)
    | r => (1, r)
  let sign := signedRest.1
  let rest := signedRest.2
  let intPart := rest.takeWhile Char.isDigit
  match rest.dropWhile Char.isDigit with
  | [] =>
      if intPart.isEmpty then none
      else some (sign * natOfDigits intPart)
  | '.' :: frac =>
      if frac.all Char.isDigit && !(intPart.isEmpty && frac.isEmpty) then
        some (sign * (natOfDigits intPart + fracOfDigits frac))
      else none
  | _ => none

/-- Embedding of the ATOMIC_MASSES table (src/pdb_center_of_mass.py lines
5-12): standard atomic masses for the common biological elements. -/
def ATOMIC_MASSES : List (String × ℚ) :=
  [("H", 1.008), ("C", 12.011), ("N", 14.007), ("O", 15.999), ("P", 30.974), ("S", 32.065)]

/-- Python exceptions raised by `calculate_chain_center_of_mass`.  The source
raises ValueError both for a malformed float field and for the explicit
"No atoms found for chain" report; the two carry different messages, so they
are embedded as distinct constructors (the latter is the EmptySetError of the
specification, the former its ParseError). -/
inductive ComError where
  | fileNotFound
  | indexError
  | parseValueError
  | noAtomsValueError
deriving DecidableEq

/-- Element-symbol resolution of src/pdb_center_of_mass.py lines 43-47: take
the stripped element field (columns 76-78); if blank, fall back to the first
character of the stripped atom-name field (columns 12-16); indexing an empty
atom-name field raises IndexError. -/
def resolveElement (line : String) : Except ComError String :=
  if pyStrip (pySlice line 76 78) = "" then
    match (pyStrip (pySlice line 12 16)).toList with
    | [] => Except.error ComError.indexError
    | c :: _ => Except.ok (String.mk [c])
  else Except.ok (pyStrip (pySlice line 76 78))

/-- Mass lookup of src/pdb_center_of_mass.py line 50:
`ATOMIC_MASSES.get(element.upper(), 12.011)` - unknown elements silently
default to the carbon mass. -/
def massOfElement (element : String) : ℚ :=
  ((ATOMIC_MASSES.lookup (pyUpper element)).getD 12.011)

/-- Whether a line is an ATOM record whose chain-identifier column (21)
matches the requested chain, i.e. whether the line contributes an atom of the
requested chain (src/pdb_center_of_mass.py lines 37-42). -/
def isChainAtomLine (chain_id : String) (line : String) : Bool :=
  pyStartsWith line "ATOM" &&
    match pyCharAt line 21 with
    | none => false
    | some c => pyStrip (String.mk [c]) == chain_id

/-- Per-line body of the read loop of `calculate_chain_center_of_mass`
(src/pdb_center_of_mass.py lines 35-59): on an ATOM record of the requested
chain, resolve the element, look up its mass, parse the three fixed-column
coordinate fields and append coordinate and mass to the accumulators; other
lines leave the accumulators unchanged. -/
def processLine (chain_id : String) (acc : List (ℚ × ℚ × ℚ) × List ℚ) (line : String) :
    Except ComError (List (ℚ × ℚ × ℚ) × List ℚ) :=
  if pyStartsWith line "ATOM" then
    match pyCharAt line 21 with
    | none => Except.error ComError.indexError
    | some c21 =>
        if pyStrip (String.mk [c21]) = chain_id then
          match resolveElement line with
          | Except.error e => Except.error e
          | Except.ok element =>
              match parsePyFloat (pySlice line 30 38), parsePyFloat (pySlice line 38 46),
                  parsePyFloat (pySlice line 46 54) with
              | some x, some y, some z =>
                  Except.ok (acc.1 ++ [(x, y, z)], acc.2 ++ [massOfElement element])
              | _, _, _ => Except.error ComError.parseValueError
        else Except.ok acc
  else Except.ok acc

/-- The read loop of `calculate_chain_center_of_mass`: process the lines in
order, stopping at the first raised exception. -/
def readChainAtoms (chain_id : String) :
    List String → List (ℚ × ℚ × ℚ) × List ℚ → Except ComError (List (ℚ × ℚ × ℚ) × List ℚ)
  | [], acc => Except.ok acc
  | line :: rest, acc =>
      match processLine chain_id acc line with
      | Except.error e => Except.error e
      | Except.ok acc2 => readChainAtoms chain_id rest acc2

/-- Mass-weighted coordinate sums (the numpy expression
`np.sum(coords_array * masses_array[:, np.newaxis], axis=0)` of
src/pdb_center_of_mass.py line 71-72). -/
def weighted_sum (coords : List (ℚ × ℚ × ℚ)) (masses : List ℚ) : ℚ × ℚ × ℚ :=
  (List.zip coords masses).foldl
    (fun acc cm =>
      (acc.1 + cm.2 * cm.1.1, acc.2.1 + cm.2 * cm.1.2.1, acc.2.2 + cm.2 * cm.1.2.2))
    (0, 0, 0)

/-- Aggregation step of `calculate_chain_center_of_mass` (lines 65-74):
total mass, mass-weighted coordinate sums, and their quotient. -/
def center_of_mass (coords : List (ℚ × ℚ × ℚ)) (masses : List ℚ) : ℚ × ℚ × ℚ :=
  let total_mass := masses.sum
  let w := weighted_sum coords masses
  (w.1 / total_mass, w.2.1 / total_mass, w.2.2 / total_mass)

/-- Embedding of `calculate_chain_center_of_mass` (src/pdb_center_of_mass.py):
the pdb_file argument is none when the path does not exist (the
`os.path.exists` guard of lines 30-31 then raises FileNotFoundError) and
otherwise carries the lines of the file. -/
def calculate_chain_center_of_mass (pdb_file : Option (List String)) (chain_id : String) :
    Except ComError (ℚ × ℚ × ℚ) :=
  match pdb_file with
  | none => Except.error ComError.fileNotFound
  | some lines =>
      match readChainAtoms chain_id lines ([], []) with
      | Except.error e => Except.error e
      | Except.ok acc =>
          if acc.1.isEmpty then Except.error ComError.noAtomsValueError
          else Except.ok (center_of_mass acc.1 acc.2)

lemma massOfElement_eq_of_upper (e k : String) (m : ℚ) (hup : pyUpper e = k)
    (hl : ATOMIC_MASSES.lookup k = some m) : massOfElement e = m := by
  unfold massOfElement
  rw [hup, hl]
  rfl

lemma massOfElement_pos (element : String) : 0 < massOfElement element := by
  unfold massOfElement ATOMIC_MASSES
  simp only [List.lookup_cons]
  repeat' split
  all_goals norm_num [List.lookup]

lemma massOfElement_unknown (element : String)
    (h : pyUpper element ∉ ["H", "C", "N", "O", "P", "S"]) :
    massOfElement element = 12.011 := by
  have h6 : pyUpper element ≠ "H" ∧ pyUpper element ≠ "C" ∧ pyUpper element ≠ "N" ∧
      pyUpper element ≠ "O" ∧ pyUpper element ≠ "P" ∧ pyUpper element ≠ "S" := by
    simp only [List.mem_cons, List.not_mem_nil, or_false, not_or] at h
    exact h
  obtain ⟨h1, h2, h3, h4, h5, h6⟩ := h6
  unfold massOfElement ATOMIC_MASSES
  simp [List.lookup_cons, beq_false_of_ne h1, beq_false_of_ne h2, beq_false_of_ne h3,
    beq_false_of_ne h4, beq_false_of_ne h5, beq_false_of_ne h6, List.lookup]

lemma resolveElement_ne_fileNotFound (line : String) :
    resolveElement line ≠ Except.error ComError.fileNotFound := by
  unfold resolveElement
  split
  · split
    · simp
    · simp
  · simp

lemma resolveElement_blank (line : String) (c : Char) (rest : List Char)
    (hblank : pyStrip (pySlice line 76 78) = "")
    (hname : (pyStrip (pySlice line 12 16)).toList = c :: rest) :
    resolveElement line = Except.ok (String.mk [c]) := by
  unfold resolveElement
  rw [if_pos hblank, hname]

lemma resolveElement_nonblank (line : String)
    (hblank : pyStrip (pySlice line 76 78) ≠ "") :
    resolveElement line = Except.ok (pyStrip (pySlice line 76 78)) := by
  unfold resolveElement
  rw [if_neg hblank]

lemma processLine_ok_shape (chain_id : String) (acc : List (ℚ × ℚ × ℚ) × List ℚ)
    (line : String) (acc2 : List (ℚ × ℚ × ℚ) × List ℚ)
    (h : processLine chain_id acc line = Except.ok acc2) :
    acc2 = acc ∨
      ∃ p element, acc2 = (acc.1 ++ [p], acc.2 ++ [massOfElement element]) := by
  unfold processLine at h
  split at h
  · split at h
    · cases h
    · split at h
      · split at h
        · cases h
        · split at h
          · cases h
            exact Or.inr ⟨_, _, rfl⟩
          · cases h
      · cases h
        exact Or.inl rfl
  · cases h
    exact Or.inl rfl

lemma except_error_inj {α : Type} (e1 e2 : ComError)
    (h : (Except.error e1 : Except ComError α) = Except.error e2) : e1 = e2 := by
  injection h

lemma processLine_ne_fileNotFound (chain_id : String) (acc : List (ℚ × ℚ × ℚ) × List ℚ)
    (line : String) :
    processLine chain_id acc line ≠ Except.error ComError.fileNotFound := by
  unfold processLine
  split
  · split
    · simp
    · split
      · split
        · rename_i e heq
          intro hcontra
          exact resolveElement_ne_fileNotFound line
            ((except_error_inj e ComError.fileNotFound hcontra) ▸ heq)
        · split
          · simp
          · simp
      · simp
  · simp

lemma readChainAtoms_ne_fileNotFound (chain_id : String) :
    ∀ (lines : List String) (acc : List (ℚ × ℚ × ℚ) × List ℚ),
      readChainAtoms chain_id lines acc ≠ Except.error ComError.fileNotFound
  | [], acc => by simp [readChainAtoms]
  | line :: rest, acc => by
      unfold readChainAtoms
      split
      · rename_i e heq
        intro hcontra
        exact processLine_ne_fileNotFound chain_id acc line
          ((except_error_inj e ComError.fileNotFound hcontra) ▸ heq)
      · exact readChainAtoms_ne_fileNotFound chain_id rest _

lemma readChainAtoms_ok_shape (chain_id : String) :
    ∀ (lines : List String) (acc res : List (ℚ × ℚ × ℚ) × List ℚ),
      readChainAtoms chain_id lines acc = Except.ok res →
      ∃ cs ms, res = (acc.1 ++ cs, acc.2 ++ ms) ∧ cs.length = ms.length ∧
        ∀ m ∈ ms, 0 < m
  | [], acc, res => by
      intro h
      unfold readChainAtoms at h
      cases h
      exact ⟨[], [], by simp, rfl, by simp⟩
  | line :: rest, acc, res => by
      intro h
      unfold readChainAtoms at h
      split at h
      · cases h
      · rename_i acc2 heq
        obtain ⟨cs, ms, hres, hlen, hpos⟩ := readChainAtoms_ok_shape chain_id rest acc2 res h
        rcases processLine_ok_shape chain_id acc line acc2 heq with rfl | ⟨p, element, rfl⟩
        · exact ⟨cs, ms, hres, hlen, hpos⟩
        · refine ⟨(p :: cs), (massOfElement element :: ms), ?_, by simp [hlen], ?_⟩
          · rw [hres]
            simp
          · intro m hm
            rcases List.mem_cons.mp hm with rfl | hm2
            · exact massOfElement_pos element
            · exact hpos m hm2

lemma processLine_no_match (chain_id : String) (acc : List (ℚ × ℚ × ℚ) × List ℚ)
    (line : String)
    (hw : pyStartsWith line "ATOM" = true → 21 < line.toList.length)
    (hno : isChainAtomLine chain_id line = false) :
    processLine chain_id acc line = Except.ok acc := by
  unfold processLine
  by_cases hA : pyStartsWith line "ATOM" = true
  · rw [if_pos hA]
    unfold isChainAtomLine at hno
    rw [hA, Bool.true_and] at hno
    split
    · rename_i hc
      exfalso
      have hlen := hw hA
      unfold pyCharAt at hc
      rw [List.getElem?_eq_none_iff] at hc
      omega
    · rename_i c hc
      rw [hc] at hno
      have hno2 : (pyStrip (String.mk [c]) == chain_id) = false := hno
      have hne : pyStrip (String.mk [c]) ≠ chain_id := by
        intro hcontra
        rw [hcontra] at hno2
        simp at hno2
      rw [if_neg hne]
  · rw [if_neg hA]

lemma readChainAtoms_no_match (chain_id : String) :
    ∀ (lines : List String) (acc : List (ℚ × ℚ × ℚ) × List ℚ),
      (∀ line ∈ lines, pyStartsWith line "ATOM" = true → 21 < line.toList.length) →
      (∀ line ∈ lines, isChainAtomLine chain_id line = false) →
      readChainAtoms chain_id lines acc = Except.ok acc
  | [], acc => by
      intro _ _
      rfl
  | line :: rest, acc => by
      intro hw hno
      unfold readChainAtoms
      rw [processLine_no_match chain_id acc line (hw line (List.mem_cons_self line rest))
        (hno line (List.mem_cons_self line rest))]
      exact readChainAtoms_no_match chain_id rest acc
        (fun l hl => hw l (List.mem_cons_of_mem line hl))
        (fun l hl => hno l (List.mem_cons_of_mem line hl))

/-- C3: error routing and well-definedness of `calculate_chain_center_of_mass`.
The FileNotFoundError is raised exactly when the path does not exist; when the
file exists (with chain columns present on its ATOM records) and the requested
chain contributes no atom record, the reported error is the
"No atoms found for chain" ValueError (the EmptySetError of the
specification); and a normal return is the mass-weighted average of a
nonempty atom list whose masses are all positive, so the total mass is
positive and the division is well defined. -/
theorem calculate_chain_center_of_mass_error_routing
    (pdb_file : Option (List String)) (chain_id : String) :
    (calculate_chain_center_of_mass pdb_file chain_id = Except.error ComError.fileNotFound
      ↔ pdb_file = none) ∧
    (∀ lines, pdb_file = some lines →
      (∀ line ∈ lines, pyStartsWith line "ATOM" = true → 21 < line.toList.length) →
      (∀ line ∈ lines, isChainAtomLine chain_id line = false) →
      calculate_chain_center_of_mass pdb_file chain_id =
        Except.error ComError.noAtomsValueError) ∧
    (∀ com, calculate_chain_center_of_mass pdb_file chain_id = Except.ok com →
      ∃ coords masses, coords ≠ [] ∧ coords.length = masses.length ∧
        (∀ m ∈ masses, 0 < m) ∧ 0 < masses.sum ∧ com = center_of_mass coords masses) := by
  refine ⟨?_, ?_, ?_⟩
  · cases pdb_file with
    | none => simp [calculate_chain_center_of_mass]
    | some lines =>
        simp only [calculate_chain_center_of_mass]
        constructor
        · intro h
          exfalso
          revert h
          split
          · rename_i e heq
            intro h
            exact readChainAtoms_ne_fileNotFound chain_id lines ([], [])
              ((except_error_inj e ComError.fileNotFound h) ▸ heq)
          · split
            · simp
            · simp
        · intro h
          cases h
  · intro lines hlines hw hno
    subst hlines
    simp only [calculate_chain_center_of_mass]
    rw [readChainAtoms_no_match chain_id lines ([], []) hw hno]
    rfl
  · intro com h
    cases pdb_file with
    | none => cases h
    | some lines =>
        simp only [calculate_chain_center_of_mass] at h
        revert h
        split
        · intro h
          cases h
        · rename_i acc heq
          split
          · intro h
            cases h
          · rename_i hne
            intro h
            injection h with hcom
            obtain ⟨cs, ms, hacc, hlen, hpos⟩ :=
              readChainAtoms_ok_shape chain_id lines ([], []) acc heq
            simp only [List.nil_append] at hacc
            subst hacc
            have hcs : cs ≠ [] := by
              intro hnil
              rw [hnil] at hne
              simp at hne
            have hms : ms ≠ [] := by
              intro hnil
              rw [hnil] at hlen
              simp only [List.length_nil] at hlen
              exact hcs (List.length_eq_zero.mp hlen)
            exact ⟨cs, ms, hcs, hlen, hpos, List.sum_pos ms hpos hms, hcom.symm⟩

/-- A well-formed ATOM record line: chain A, atom name field " N  ", blank
element field (the line ends at column 54), coordinates (1, 2, 3). -/
def sampleAtomLine : String :=
  "ATOM      1  N   ALA A   1       1.000   2.000   3.000"

/-- Witness for C3: the FileNotFoundError case and the empty-chain case at
concrete inputs (the sample file holds only a chain-A record, so chain B
contributes zero atoms). -/
theorem calculate_chain_center_of_mass_error_routing_witness :
    (calculate_chain_center_of_mass none "A" = Except.error ComError.fileNotFound) ∧
    (calculate_chain_center_of_mass (some [sampleAtomLine]) "B" =
      Except.error ComError.noAtomsValueError) :=
  ⟨((calculate_chain_center_of_mass_error_routing none "A").1).mpr rfl,
    ((calculate_chain_center_of_mass_error_routing (some [sampleAtomLine]) "B").2.1)
      [sampleAtomLine] rfl (by decide) (by decide)⟩

/-- C4: the atomic-mass policy.  Every assigned mass is positive; the six
table elements H, C, N, O, P, S receive their table masses; any element whose
uppercased symbol is outside the table receives the carbon default 12.011
(the lookup is total, so an unrecognized element never fails the load); and
when the element field (columns 76-78) is blank, the element is taken from
the first character of the stripped atom-name field (columns 12-16), while a
non-blank element field is used as is. -/
theorem atomic_mass_policy :
    (∀ element : String, 0 < massOfElement element) ∧
    (massOfElement "H" = 1.008 ∧ massOfElement "C" = 12.011 ∧
      massOfElement "N" = 14.007 ∧ massOfElement "O" = 15.999 ∧
      massOfElement "P" = 30.974 ∧ massOfElement "S" = 32.065) ∧
    (∀ element : String, pyUpper element ∉ ["H", "C", "N", "O", "P", "S"] →
      massOfElement element = 12.011) ∧
    (∀ line : String, pyStrip (pySlice line 76 78) ≠ "" →
      resolveElement line = Except.ok (pyStrip (pySlice line 76 78))) ∧
    (∀ (line : String) (c : Char) (rest : List Char),
      pyStrip (pySlice line 76 78) = "" →
      (pyStrip (pySlice line 12 16)).toList = c :: rest →
      resolveElement line = Except.ok (String.mk [c])) :=
  ⟨massOfElement_pos,
    ⟨massOfElement_eq_of_upper "H" "H" 1.008 (by decide) rfl,
      massOfElement_eq_of_upper "C" "C" 12.011 (by decide) rfl,
      massOfElement_eq_of_upper "N" "N" 14.007 (by decide) rfl,
      massOfElement_eq_of_upper "O" "O" 15.999 (by decide) rfl,
      massOfElement_eq_of_upper "P" "P" 30.974 (by decide) rfl,
      massOfElement_eq_of_upper "S" "S" 32.065 (by decide) rfl⟩,
    massOfElement_unknown,
    resolveElement_nonblank,
    fun line c rest h1 h2 => resolveElement_blank line c rest h1 h2⟩

/-- Witness for C4: iron is outside the table and receives the carbon
default, and the sample line with a blank element field resolves its element
from the first character of the atom name. -/
theorem atomic_mass_policy_witness :
    (pyUpper "FE" ∉ ["H", "C", "N", "O", "P", "S"]) ∧
      massOfElement "FE" = 12.011 ∧
      resolveElement sampleAtomLine = Except.ok (String.mk ['N']) :=
  ⟨by decide, atomic_mass_policy.2.2.1 "FE" (by decide),
    atomic_mass_policy.2.2.2.2 sampleAtomLine 'N' [] (by decide) (by decide)⟩

/-- C7: the center of mass of a single atom is exactly the position of that
atom, whatever its (positive) mass. -/
theorem center_of_mass_single_atom (p : ℚ × ℚ × ℚ) (m : ℚ) (h : 0 < m) :
    center_of_mass [p] [m] = p := by
  have hm : m ≠ 0 := ne_of_gt h
  obtain ⟨x, y, z⟩ := p
  unfold center_of_mass weighted_sum
  simp only [List.zip_cons_cons, List.zip_nil_left, List.foldl_cons, List.foldl_nil,
    List.sum_cons, List.sum_nil, add_zero, zero_add]
  rw [mul_div_cancel_left₀ x hm, mul_div_cancel_left₀ y hm, mul_div_cancel_left₀ z hm]

/-- Witness for C7 at position (1,2,3) with the carbon mass. -/
theorem center_of_mass_single_atom_witness :
    (0 : ℚ) < 12.011 ∧
      center_of_mass [((1 : ℚ), (2 : ℚ), (3 : ℚ))] [(12.011 : ℚ)] = (1, 2, 3) :=
  ⟨by norm_num, center_of_mass_single_atom (1, 2, 3) 12.011 (by norm_num)⟩

/-- A mutation suggestion record (the dict literal of
src/protein_improvement_agent.py lines 124-139). -/
structure MutationSuggestion where
  chain : String
  position : ℤ
  original : String
  suggestion : String
  reason : String
deriving DecidableEq

/-- The rule applied to one interface residue of the antibody chain
(src/protein_improvement_agent.py lines 121-139): the small residues ALA,
GLY, SER map to a tyrosine substitution, the basic residues LYS, ARG map to a
glutamate substitution, and every other residue name yields no suggestion. -/
def mutation_rule (chain : String) (res_id : ℤ) (res_name : String) :
    Option MutationSuggestion :=
  if res_name ∈ ["ALA", "GLY", "SER"] then
    some { chain := chain, position := res_id, original := res_name, suggestion := "TYR",
           reason := "Replacing small residue with larger aromatic to increase contacts" }
  else if res_name ∈ ["LYS", "ARG"] then
    some { chain := chain, position := res_id, original := res_name, suggestion := "GLU",
           reason := "Potential salt bridge formation" }
  else none

/-- Embedding of `ProteinImprovementAgent.suggest_mutations`
(src/protein_improvement_agent.py lines 99-148): filter the interface
residues down to the antibody chain, look up each residue name (the first
residue of the chain with the matching sequence number, matching the break
of the source loop) and apply the rule.  A chain or residue the lookup
misses contributes nothing; no claim depends on the KeyError the Biopython
item access would raise for a missing chain. -/
def suggest_mutations (s : PDBStructure) (interface_residues : List (String × ℤ))
    (antibody_chain : String) : List MutationSuggestion :=
  (interface_residues.filter fun t => decide (t.1 = antibody_chain)).foldl
    (fun suggestions t =>
      match s.chains.find? (fun ch => ch.id == t.1) with
      | none => suggestions
      | some ch =>
          match ch.residues.find? (fun r => r.resseq == t.2) with
          | none => suggestions
          | some r =>
              match mutation_rule t.1 t.2 r.resname with
              | none => suggestions
              | some sug => suggestions ++ [sug])
    []

/-- C9: the mutation heuristic is a fixed lookup on the residue name.  ALA,
GLY and SER yield the tyrosine suggestion with its fixed rationale string,
LYS and ARG yield the glutamate suggestion with its fixed rationale string,
and every other residue name yields no suggestion. -/
theorem mutation_rule_classification :
    ∀ (chain : String) (res_id : ℤ) (res_name : String),
      (res_name ∈ ["ALA", "GLY", "SER"] →
        mutation_rule chain res_id res_name = some
          { chain := chain, position := res_id, original := res_name, suggestion := "TYR",
            reason := "Replacing small residue with larger aromatic to increase contacts" }) ∧
      (res_name ∈ ["LYS", "ARG"] →
        mutation_rule chain res_id res_name = some
          { chain := chain, position := res_id, original := res_name, suggestion := "GLU",
            reason := "Potential salt bridge formation" }) ∧
      (res_name ∉ ["ALA", "GLY", "SER"] → res_name ∉ ["LYS", "ARG"] →
        mutation_rule chain res_id res_name = none) := by
  intro chain res_id res_name
  refine ⟨fun h => ?_, fun h => ?_, fun h1 h2 => ?_⟩
  · unfold mutation_rule
    rw [if_pos h]
  · have hnotsmall : res_name ∉ ["ALA", "GLY", "SER"] := by
      simp only [List.mem_cons, List.not_mem_nil, or_false] at h
      rcases h with rfl | rfl
      · decide
      · decide
    unfold mutation_rule
    rw [if_neg hnotsmall, if_pos h]
  · unfold mutation_rule
    rw [if_neg h1, if_neg h2]

/-- Witness for C9: ALA yields the tyrosine suggestion, TRP yields none. -/
theorem mutation_rule_classification_witness :
    ("ALA" ∈ ["ALA", "GLY", "SER"] ∧
      mutation_rule "H" 5 "ALA" = some
        { chain := "H", position := 5, original := "ALA", suggestion := "TYR",
          reason := "Replacing small residue with larger aromatic to increase contacts" }) ∧
    ("TRP" ∉ ["ALA", "GLY", "SER"] ∧ "TRP" ∉ ["LYS", "ARG"] ∧
      mutation_rule "H" 6 "TRP" = none) :=
  ⟨⟨by decide, (mutation_rule_classification "H" 5 "ALA").1 (by decide)⟩,
    ⟨by decide, by decide,
      (mutation_rule_classification "H" 6 "TRP").2.2 (by decide) (by decide)⟩⟩
